import Mathlib

/-!
# rejit: visitors and match callbacks of `src/codegen.h`

A shallow embedding of the inline code of `codegen.h` (namespace
`rejit::internal`): the leaf visitors of `RegexpIndexer`, `RegexpLister` and
`FF_finder`, the list helpers `RegexpLister::List` / `ListNew`, and the
dispatchers of `FastForwardGen`.

Conventions of the embedding:
* a `Regexp*` is a `RegexpPtr`; the nodes live in a `Memory` that maps a
  pointer to the node it points to;
* a `vector<T>` is a `List T`, `push_back(x)` is `l ++ [x]`;
* code that can reach `UNREACHABLE()` or a failing `ASSERT` returns an
  `Outcome`, which keeps the state the program was in when it stopped;
* what `codegen.h` only declares, or takes from `parser.h` / `globals.h`, is
  either a parameter of the embedded function or a definition whose comment
  says which words of the specification it follows.
-/

namespace Rejit

/-! ## Data model -/

/-- The type tag returned by `Regexp::type()`. The six physical kinds are the
ones `codegen.h` names in its visitors; the composite kinds are listed by the
macro `LIST_FLOW_REGEXP_TYPES` of `parser.h`, so they are numbered here by
their position in that list; `kInvalid` is any other value the tag can hold. -/
inductive RegexpType where
  | kMultipleChar
  | kPeriod
  | kBracket
  | kStartOfLine
  | kEndOfLine
  | kEpsilon
  | kFlow (position : Nat)
  | kInvalid (value : Nat)
deriving DecidableEq, Repr

/-- The part of a `Regexp` object that `codegen.h` reads or writes: `type()`,
`entry_state()` and `output_state()`. -/
structure Regexp where
  type : RegexpType
  entry_state : Int
  output_state : Int
deriving DecidableEq, Repr

/-- A `Regexp*` (also `MultipleChar*`, `Epsilon*`, ...: the casts
`AsControlRegexp`, `AsMatchingRegexp` and `reinterpret_cast` keep the address). -/
abbrev RegexpPtr := Nat

/-- The nodes of the regular expression tree, by address. -/
abbrev Memory := RegexpPtr → Regexp

/-- The lists of the compilation context `RegexpInfo` that `codegen.h`
reaches through `re_matching_list()`, `re_control_list()`,
`extra_allocated()` and `ff_list()`. -/
structure RegexpInfo where
  re_matching_list : List RegexpPtr
  re_control_list : List RegexpPtr
  extra_allocated : List RegexpPtr
  ff_list : List RegexpPtr
deriving DecidableEq, Repr

/-- How a call ends: it returns `a` in state `s`, or it stops at a fatal
internal-consistency failure with the program in state `s`. -/
inductive Outcome (σ : Type) (α : Type) where
  | ret (a : α) (s : σ)
  | fatal (s : σ)
deriving DecidableEq, Repr

/-- Sequencing of two statements: the second runs only if the first returned. -/
def Outcome.andThen {σ α β : Type} (o : Outcome σ α) (k : α → σ → Outcome σ β) :
    Outcome σ β :=
  match o with
  | .ret a s => k a s
  | .fatal s => .fatal s

/-- The state the program is in when the call ends, either way. -/
def Outcome.state {σ α : Type} : Outcome σ α → σ
  | .ret _ s => s
  | .fatal s => s

/-- Modelled from the spec: the macro `UNREACHABLE()` is defined in `globals.h`,
outside `codegen.h`. Section 7 of the specification: a fatal
internal-consistency failure, which "must stop compilation immediately". -/
def UNREACHABLE {σ α : Type} (s : σ) : Outcome σ α := .fatal s

/-- Modelled from the spec: the macro `ASSERT(c)` is defined in `globals.h`,
outside `codegen.h`. A condition that holds lets the program continue unchanged;
one that fails is an internal-consistency failure (section 7), hence fatal. -/
def ASSERT {σ : Type} (c : Bool) (s : σ) : Outcome σ Unit :=
  if c then .ret () s else .fatal s

/-! ## RegexpLister (codegen.h, lines 74-114) -/

/-- `RegexpLister::List`: `IsControlRegexp` is a method of `Regexp` declared in
`parser.h`, taken here as a parameter on the node pointed to. -/
def RegexpLister.List (IsControlRegexp : Regexp → Bool) (mem : Memory)
    (rinfo : RegexpInfo) (re : RegexpPtr) : RegexpInfo :=
  if IsControlRegexp (mem re) then
    { rinfo with re_control_list := rinfo.re_control_list ++ [re] }
  else
    { rinfo with re_matching_list := rinfo.re_matching_list ++ [re] }

/-- `RegexpLister::ListNew`: register the node in `extra_allocated`, then list it. -/
def RegexpLister.ListNew (IsControlRegexp : Regexp → Bool) (mem : Memory)
    (rinfo : RegexpInfo) (re : RegexpPtr) : RegexpInfo :=
  RegexpLister.List IsControlRegexp mem
    { rinfo with extra_allocated := rinfo.extra_allocated ++ [re] } re

/-- `RegexpLister::VisitRegexp`. -/
def RegexpLister.VisitRegexp (IsControlRegexp : Regexp → Bool) (mem : Memory)
    (rinfo : RegexpInfo) (re : RegexpPtr) : RegexpInfo :=
  RegexpLister.List IsControlRegexp mem rinfo re

/-- `RegexpLister::VisitMultipleChar`. -/
def RegexpLister.VisitMultipleChar (IsControlRegexp : Regexp → Bool) (mem : Memory)
    (rinfo : RegexpInfo) (re : RegexpPtr) : RegexpInfo :=
  RegexpLister.VisitRegexp IsControlRegexp mem rinfo re

/-- `RegexpLister::VisitPeriod`. -/
def RegexpLister.VisitPeriod (IsControlRegexp : Regexp → Bool) (mem : Memory)
    (rinfo : RegexpInfo) (re : RegexpPtr) : RegexpInfo :=
  RegexpLister.VisitRegexp IsControlRegexp mem rinfo re

/-- `RegexpLister::VisitBracket`. -/
def RegexpLister.VisitBracket (IsControlRegexp : Regexp → Bool) (mem : Memory)
    (rinfo : RegexpInfo) (re : RegexpPtr) : RegexpInfo :=
  RegexpLister.VisitRegexp IsControlRegexp mem rinfo re

/-- `RegexpLister::VisitStartOfLine`. -/
def RegexpLister.VisitStartOfLine (IsControlRegexp : Regexp → Bool) (mem : Memory)
    (rinfo : RegexpInfo) (re : RegexpPtr) : RegexpInfo :=
  RegexpLister.VisitRegexp IsControlRegexp mem rinfo re

/-- `RegexpLister::VisitEndOfLine`. -/
def RegexpLister.VisitEndOfLine (IsControlRegexp : Regexp → Bool) (mem : Memory)
    (rinfo : RegexpInfo) (re : RegexpPtr) : RegexpInfo :=
  RegexpLister.VisitRegexp IsControlRegexp mem rinfo re

/-- `RegexpLister::VisitEpsilon`: the body is `UNREACHABLE();`. -/
def RegexpLister.VisitEpsilon (rinfo : RegexpInfo) (_epsilon : RegexpPtr) :
    Outcome RegexpInfo Unit :=
  UNREACHABLE rinfo

/-- The five leaf visitors that `codegen.h` defines inline in each tree walker. -/
inductive LeafVisitor where
  | MultipleChar
  | Period
  | Bracket
  | StartOfLine
  | EndOfLine
deriving DecidableEq, Repr

/-- One call of a leaf visitor of the `RegexpLister`, chosen by name. -/
def listerVisitLeaf (IsControlRegexp : Regexp → Bool) (mem : Memory)
    (rinfo : RegexpInfo) (call : LeafVisitor × RegexpPtr) : RegexpInfo :=
  match call.1 with
  | .MultipleChar => RegexpLister.VisitMultipleChar IsControlRegexp mem rinfo call.2
  | .Period => RegexpLister.VisitPeriod IsControlRegexp mem rinfo call.2
  | .Bracket => RegexpLister.VisitBracket IsControlRegexp mem rinfo call.2
  | .StartOfLine => RegexpLister.VisitStartOfLine IsControlRegexp mem rinfo call.2
  | .EndOfLine => RegexpLister.VisitEndOfLine IsControlRegexp mem rinfo call.2

/-- A sequence of leaf-visitor calls, made one after the other on the same context. -/
def listerVisitLeaves (IsControlRegexp : Regexp → Bool) (mem : Memory)
    (rinfo : RegexpInfo) (calls : List (LeafVisitor × RegexpPtr)) : RegexpInfo :=
  calls.foldl (listerVisitLeaf IsControlRegexp mem) rinfo

/-- The control predicate the specification describes (zero-width kinds are
control nodes); used to evaluate the lister on concrete trees. -/
def zeroWidth (r : Regexp) : Bool :=
  r.type = .kStartOfLine || r.type = .kEndOfLine || r.type = .kEpsilon

/-- A small tree store, not yet indexed: address 1 is a literal run, 2 a line
start, 3 a wildcard, 4 a line end, 5 a composite node (the first kind of
`LIST_FLOW_REGEXP_TYPES`), every other address an epsilon. -/
def sampleMemory : Memory := fun p =>
  match p with
  | 1 => { type := .kMultipleChar, entry_state := -1, output_state := -1 }
  | 2 => { type := .kStartOfLine, entry_state := -1, output_state := -1 }
  | 3 => { type := .kPeriod, entry_state := -1, output_state := -1 }
  | 4 => { type := .kEndOfLine, entry_state := -1, output_state := -1 }
  | 5 => { type := .kFlow 0, entry_state := -1, output_state := -1 }
  | _ => { type := .kEpsilon, entry_state := -1, output_state := -1 }

/-- The leaves of the small tree, visited in traversal order. -/
def sampleCalls : List (LeafVisitor × RegexpPtr) :=
  [(.MultipleChar, 1), (.StartOfLine, 2), (.Period, 3), (.EndOfLine, 4)]

/-- A compilation context with all four lists empty. -/
def emptyInfo : RegexpInfo :=
  { re_matching_list := [], re_control_list := [], extra_allocated := [], ff_list := [] }

/-! ## FF_finder (codegen.h, lines 119-163) -/

/-- `FF_finder::VisitRegexp`: `ff_list_` is `rinfo_->ff_list()`; the node is
pushed at its back and the visit returns `true`. -/
def FF_finder.VisitRegexp (rinfo : RegexpInfo) (re : RegexpPtr) : Bool × RegexpInfo :=
  (true, { rinfo with ff_list := rinfo.ff_list ++ [re] })

/-- `DEFINE_FF_FINDER_SIMPLE_VISITOR(MultipleChar)`. -/
def FF_finder.VisitMultipleChar (rinfo : RegexpInfo) (re : RegexpPtr) : Bool × RegexpInfo :=
  FF_finder.VisitRegexp rinfo re

/-- `DEFINE_FF_FINDER_SIMPLE_VISITOR(Period)`. -/
def FF_finder.VisitPeriod (rinfo : RegexpInfo) (re : RegexpPtr) : Bool × RegexpInfo :=
  FF_finder.VisitRegexp rinfo re

/-- `DEFINE_FF_FINDER_SIMPLE_VISITOR(Bracket)`. -/
def FF_finder.VisitBracket (rinfo : RegexpInfo) (re : RegexpPtr) : Bool × RegexpInfo :=
  FF_finder.VisitRegexp rinfo re

/-- `DEFINE_FF_FINDER_SIMPLE_VISITOR(StartOfLine)`. -/
def FF_finder.VisitStartOfLine (rinfo : RegexpInfo) (re : RegexpPtr) : Bool × RegexpInfo :=
  FF_finder.VisitRegexp rinfo re

/-- `DEFINE_FF_FINDER_SIMPLE_VISITOR(EndOfLine)`. -/
def FF_finder.VisitEndOfLine (rinfo : RegexpInfo) (re : RegexpPtr) : Bool × RegexpInfo :=
  FF_finder.VisitRegexp rinfo re

/-- `FF_finder::VisitEpsilon`: `UNREACHABLE(); return false;`. -/
def FF_finder.VisitEpsilon (rinfo : RegexpInfo) (_epsilon : RegexpPtr) :
    Outcome RegexpInfo Bool :=
  (UNREACHABLE rinfo : Outcome RegexpInfo Unit).andThen (fun _ s => .ret false s)

/-- One call of a leaf visitor of the `FF_finder`, chosen by name. -/
def ffFinderVisitLeaf (v : LeafVisitor) (rinfo : RegexpInfo) (re : RegexpPtr) :
    Bool × RegexpInfo :=
  match v with
  | .MultipleChar => FF_finder.VisitMultipleChar rinfo re
  | .Period => FF_finder.VisitPeriod rinfo re
  | .Bracket => FF_finder.VisitBracket rinfo re
  | .StartOfLine => FF_finder.VisitStartOfLine rinfo re
  | .EndOfLine => FF_finder.VisitEndOfLine rinfo re

/-! ## RegexpIndexer (codegen.h, lines 33-69) -/

/-- The two counters of a `RegexpIndexer` (`rinfo_` is not touched by the leaf
visitors and is left out). -/
structure RegexpIndexer where
  entry_state_ : Int
  last_state_ : Int
deriving DecidableEq, Repr

/-- The default arguments of the constructor: `entry_state = 0, last_state = 0`. -/
def RegexpIndexer.new : RegexpIndexer := { entry_state_ := 0, last_state_ := 0 }

/-- Modelled from the spec: `RegexpIndexer::VisitRegexp` is declared in
`codegen.h` (line 50) and defined in `codegen.cc`. Section 4.1: "Leaf kinds
terminate recursion by recording the given entry/output pair directly on the
node." The pair the indexer was given is passed explicitly. -/
def RegexpIndexer.VisitRegexp (entry_state output_state : Int) (mem : Memory)
    (re : RegexpPtr) : Memory :=
  Function.update mem re
    { mem re with entry_state := entry_state, output_state := output_state }

/-- `RegexpIndexer::VisitMultipleChar` (line 51). -/
def RegexpIndexer.VisitMultipleChar (entry_state output_state : Int) (mem : Memory)
    (re : RegexpPtr) : Memory :=
  RegexpIndexer.VisitRegexp entry_state output_state mem re

/-- `RegexpIndexer::VisitPeriod` (line 52). -/
def RegexpIndexer.VisitPeriod (entry_state output_state : Int) (mem : Memory)
    (re : RegexpPtr) : Memory :=
  RegexpIndexer.VisitRegexp entry_state output_state mem re

/-- `RegexpIndexer::VisitBracket` (line 53). -/
def RegexpIndexer.VisitBracket (entry_state output_state : Int) (mem : Memory)
    (re : RegexpPtr) : Memory :=
  RegexpIndexer.VisitRegexp entry_state output_state mem re

/-- `RegexpIndexer::VisitStartOfLine` (line 54). -/
def RegexpIndexer.VisitStartOfLine (entry_state output_state : Int) (mem : Memory)
    (re : RegexpPtr) : Memory :=
  RegexpIndexer.VisitRegexp entry_state output_state mem re

/-- `RegexpIndexer::VisitEndOfLine` (line 55). -/
def RegexpIndexer.VisitEndOfLine (entry_state output_state : Int) (mem : Memory)
    (re : RegexpPtr) : Memory :=
  RegexpIndexer.VisitRegexp entry_state output_state mem re

/-- `RegexpIndexer::VisitEpsilon` (line 58): the body is `UNREACHABLE();`. The
state is the indexer together with the nodes it could write to. -/
def RegexpIndexer.VisitEpsilon (ix : RegexpIndexer) (mem : Memory) (_epsilon : RegexpPtr) :
    Outcome (RegexpIndexer × Memory) Unit :=
  UNREACHABLE (ix, mem)

/-- One call of a leaf visitor of the `RegexpIndexer`, chosen by name. -/
def indexerVisitLeaf (v : LeafVisitor) (entry_state output_state : Int) (mem : Memory)
    (re : RegexpPtr) : Memory :=
  match v with
  | .MultipleChar => RegexpIndexer.VisitMultipleChar entry_state output_state mem re
  | .Period => RegexpIndexer.VisitPeriod entry_state output_state mem re
  | .Bracket => RegexpIndexer.VisitBracket entry_state output_state mem re
  | .StartOfLine => RegexpIndexer.VisitStartOfLine entry_state output_state mem re
  | .EndOfLine => RegexpIndexer.VisitEndOfLine entry_state output_state mem re

/-- Modelled from the spec: the dispatcher `Visit` of `RealRegexpVisitor` is in
`parser.h`. Section 4.1: "Dispatch is by node kind"; sections 4.4 and 7: an
unrecognized kind reaching a dispatcher is fatal. The visitors of the composite
kinds are only declared in `codegen.h`, so they are the parameter `VisitFlow`. -/
def RegexpIndexer.Visit
    (VisitFlow : Nat → Int → Int → RegexpIndexer → Memory → RegexpPtr →
      Outcome (RegexpIndexer × Memory) Unit)
    (entry_state output_state : Int) (ix : RegexpIndexer) (mem : Memory) (re : RegexpPtr) :
    Outcome (RegexpIndexer × Memory) Unit :=
  match (mem re).type with
  | .kMultipleChar =>
      .ret () (ix, RegexpIndexer.VisitMultipleChar entry_state output_state mem re)
  | .kPeriod => .ret () (ix, RegexpIndexer.VisitPeriod entry_state output_state mem re)
  | .kBracket => .ret () (ix, RegexpIndexer.VisitBracket entry_state output_state mem re)
  | .kStartOfLine =>
      .ret () (ix, RegexpIndexer.VisitStartOfLine entry_state output_state mem re)
  | .kEndOfLine => .ret () (ix, RegexpIndexer.VisitEndOfLine entry_state output_state mem re)
  | .kEpsilon => RegexpIndexer.VisitEpsilon ix mem re
  | .kFlow n => VisitFlow n entry_state output_state ix mem re
  | .kInvalid _ => UNREACHABLE (ix, mem)

/-- Modelled from the spec: `RegexpIndexer::IndexSub` is declared in
`codegen.h` (line 43) and defined in `codegen.cc`. Section 4.1:
"`IndexSub(node, entry, output)` assigns explicit entry/output state indices to
a subtree (output = -1 meaning allocate a fresh one)"; the comment on the
declaration: "By default index from 0 and create the output state. If specified
force the entry and/or output states." A fresh state is the one after
`last_state_`, which then becomes the last state. -/
def RegexpIndexer.IndexSub
    (VisitFlow : Nat → Int → Int → RegexpIndexer → Memory → RegexpPtr →
      Outcome (RegexpIndexer × Memory) Unit)
    (ix : RegexpIndexer) (mem : Memory) (regexp : RegexpPtr)
    (entry_state output_state : Int) : Outcome (RegexpIndexer × Memory) Unit :=
  if output_state = -1 then
    RegexpIndexer.Visit VisitFlow entry_state (ix.last_state_ + 1)
      { ix with last_state_ := ix.last_state_ + 1 } mem regexp
  else
    RegexpIndexer.Visit VisitFlow entry_state output_state ix mem regexp

/-- The call `IndexSub(regexp)`: the declaration on line 43 gives the defaults
`entry_state = 0` and `output_state = -1`. -/
def RegexpIndexer.IndexSubDefault
    (VisitFlow : Nat → Int → Int → RegexpIndexer → Memory → RegexpPtr →
      Outcome (RegexpIndexer × Memory) Unit)
    (ix : RegexpIndexer) (mem : Memory) (regexp : RegexpPtr) :
    Outcome (RegexpIndexer × Memory) Unit :=
  RegexpIndexer.IndexSub VisitFlow ix mem regexp 0 (-1)

/-- The tags of the five leaf kinds whose visitors call `VisitRegexp`. -/
def leafKinds : List RegexpType :=
  [.kMultipleChar, .kPeriod, .kBracket, .kStartOfLine, .kEndOfLine]

/-- A composite visitor that does nothing, to evaluate the indexer on leaves. -/
def noFlow (_n : Nat) (_entry _output : Int) (ix : RegexpIndexer) (mem : Memory)
    (_re : RegexpPtr) : Outcome (RegexpIndexer × Memory) Unit :=
  .ret () (ix, mem)

/-! ## FastForwardGen (codegen.h, lines 270-338) -/

/-- `FastForwardGen::Behaviour`. -/
inductive Behaviour where
  | SetStateFallThrough
  | FallThrough
deriving DecidableEq, Repr

/-- `FastForwardGen::PotentialMatches`: `Codegen::SetEntryStates` is declared
only (line 214) and is a parameter acting on the code generation state. -/
def FastForwardGen.PotentialMatches {σ : Type}
    (SetEntryStates : List RegexpPtr → σ → Outcome σ Unit)
    (behaviour_ : Behaviour) (regexps : List RegexpPtr) (s : σ) : Outcome σ Unit :=
  if behaviour_ = .SetStateFallThrough then
    SetEntryStates regexps s
  else
    ASSERT (decide (behaviour_ = .FallThrough)) s

/-- `FastForwardGen::PotentialMatch`: `FoundState` is declared only (line 288)
and is a parameter acting on the code generation state. -/
def FastForwardGen.PotentialMatch {σ : Type}
    (FoundState : Int → Int → σ → Outcome σ Unit)
    (behaviour_ : Behaviour) (mem : Memory) (re : RegexpPtr) (s : σ) : Outcome σ Unit :=
  if behaviour_ = .SetStateFallThrough then
    FoundState 0 (mem re).entry_state s
  else
    ASSERT (decide (behaviour_ = .FallThrough)) s

/-- The calls a fast-forward generator makes to seed automaton state. -/
inductive SeedCall where
  | FoundState (time state : Int)
  | SetEntryStates (re_list : List RegexpPtr)
deriving DecidableEq, Repr

/-- `FoundState` as a recorder of the call. -/
def recordFoundState (time state : Int) (log : List SeedCall) :
    Outcome (List SeedCall) Unit :=
  .ret () (log ++ [.FoundState time state])

/-- `SetEntryStates` as a recorder of the call. -/
def recordSetEntryStates (re_list : List RegexpPtr) (log : List SeedCall) :
    Outcome (List SeedCall) Unit :=
  .ret () (log ++ [.SetEntryStates re_list])

/-- The `case` labels that `LIST_PHYSICAL_REGEXP_TYPES(TYPE_CASE)` expands to,
tried against the tag in the order of the list: the label that is taken, if any. -/
def switchCase : List RegexpType → RegexpType → Option RegexpType
  | [], _ => none
  | k :: rest, tag => if tag = k then some k else switchCase rest tag

/-- `FastForwardGen::VisitSingle`: the macro `LIST_PHYSICAL_REGEXP_TYPES` is in
`parser.h` and the `VisitSingle<Kind>` functions are declared only (lines
309-312); both are parameters. -/
def FastForwardGen.VisitSingle {σ : Type} (LIST_PHYSICAL_REGEXP_TYPES : List RegexpType)
    (VisitSingleKind : RegexpType → RegexpPtr → σ → Outcome σ Unit)
    (mem : Memory) (regexp : RegexpPtr) (s : σ) : Outcome σ Unit :=
  match switchCase LIST_PHYSICAL_REGEXP_TYPES (mem regexp).type with
  | some k => VisitSingleKind k regexp s
  | none => UNREACHABLE s

/-- The physical kinds `codegen.h` names in its visitors. -/
def physicalKinds : List RegexpType :=
  [.kMultipleChar, .kPeriod, .kBracket, .kStartOfLine, .kEndOfLine, .kEpsilon]

/-- `VisitSingle<Kind>` as a recorder of the call: which test, on which node. -/
def recordVisitSingle (k : RegexpType) (re : RegexpPtr) (log : List (RegexpType × RegexpPtr)) :
    Outcome (List (RegexpType × RegexpPtr)) Unit :=
  .ret () (log ++ [(k, re)])

/-! ## Match callbacks (codegen.h, lines 22-28) -/

/-- Modelled from the spec: `Match` is declared outside `codegen.h`. Section 6:
"a match span is a `(start_offset, end_offset)` pair in input-buffer
coordinates". -/
structure Match where
  start_offset : Nat
  end_offset : Nat
deriving DecidableEq, Repr

/-- Modelled from the spec: `MatchAllAppendRaw` is declared in `codegen.h`
(line 25, "Simply push a match with no further check.") and defined in
`codegen.cc`. Section 4.4: it "unconditionally records a new match span". -/
def MatchAllAppendRaw (matches_ : List Match) (new_match : Match) : List Match :=
  matches_ ++ [new_match]

/-- Modelled from the spec: `MatchAllAppendFilter` is declared in `codegen.h`
(line 28, "Push a match and delete any previously registered matches rendered
invalid by the new match.") and defined in `codegen.cc`. Section 4.4: it
"records a new match span and evicts any previously recorded span now known to
be invalid because the new match overlaps/supersedes it under the active match
policy". The policy is the parameter `invalidates new_match recorded`. -/
def MatchAllAppendFilter (invalidates : Match → Match → Bool)
    (matches_ : List Match) (new_match : Match) : List Match :=
  matches_.filter (fun recorded => !invalidates new_match recorded) ++ [new_match]

/-- A scan that reports the matches of `found`, in that order, through
`MatchAllAppendFilter`, into a list that starts empty. -/
def filterScan (invalidates : Match → Match → Bool) (found : List Match) : List Match :=
  found.foldl (MatchAllAppendFilter invalidates) []

/-- A policy for evaluation: the new match covers the recorded one (section
4.4: "a longer match discovered later invalidates a shorter one"). -/
def covers (new_match recorded : Match) : Bool :=
  decide (new_match.start_offset ≤ recorded.start_offset)
    && decide (recorded.end_offset ≤ new_match.end_offset)

/-! ## Theorems: RegexpLister -/

/-- C1: `List(re)` appends `re` at the end of exactly one list, the control list
when `re->IsControlRegexp()` holds and the matching list otherwise; the other
list, the `extra_allocated` pool and the fast-forward list are unchanged. -/
theorem lister_List_appends_to_one_list (IsControlRegexp : Regexp → Bool)
    (mem : Memory) (rinfo : RegexpInfo) (re : RegexpPtr) :
    (RegexpLister.List IsControlRegexp mem rinfo re).re_control_list
        = (if IsControlRegexp (mem re) then rinfo.re_control_list ++ [re]
           else rinfo.re_control_list)
    ∧ (RegexpLister.List IsControlRegexp mem rinfo re).re_matching_list
        = (if IsControlRegexp (mem re) then rinfo.re_matching_list
           else rinfo.re_matching_list ++ [re])
    ∧ (RegexpLister.List IsControlRegexp mem rinfo re).extra_allocated
        = rinfo.extra_allocated
    ∧ (RegexpLister.List IsControlRegexp mem rinfo re).ff_list = rinfo.ff_list := by
  unfold RegexpLister.List
  by_cases h : IsControlRegexp (mem re) = true <;> simp [h]

/-- Every leaf visitor of the lister is `List` on the node it is given. -/
theorem listerVisitLeaf_eq_List (IsControlRegexp : Regexp → Bool) (mem : Memory)
    (rinfo : RegexpInfo) (call : LeafVisitor × RegexpPtr) :
    listerVisitLeaf IsControlRegexp mem rinfo call
      = RegexpLister.List IsControlRegexp mem rinfo call.2 := by
  obtain ⟨v, re⟩ := call
  cases v <;> rfl

/-- The lists after a sequence of leaf visits, from any starting context. -/
theorem listerVisitLeaves_lists (IsControlRegexp : Regexp → Bool) (mem : Memory)
    (calls : List (LeafVisitor × RegexpPtr)) :
    ∀ rinfo : RegexpInfo,
      (listerVisitLeaves IsControlRegexp mem rinfo calls).re_matching_list
          = rinfo.re_matching_list
            ++ (calls.map Prod.snd).filter (fun p => !IsControlRegexp (mem p))
      ∧ (listerVisitLeaves IsControlRegexp mem rinfo calls).re_control_list
          = rinfo.re_control_list
            ++ (calls.map Prod.snd).filter (fun p => IsControlRegexp (mem p))
      ∧ (listerVisitLeaves IsControlRegexp mem rinfo calls).extra_allocated
          = rinfo.extra_allocated
      ∧ (listerVisitLeaves IsControlRegexp mem rinfo calls).ff_list = rinfo.ff_list := by
  induction calls with
  | nil => intro rinfo; simp [listerVisitLeaves]
  | cons call rest ih =>
    intro rinfo
    have step : listerVisitLeaves IsControlRegexp mem rinfo (call :: rest)
        = listerVisitLeaves IsControlRegexp mem
            (RegexpLister.List IsControlRegexp mem rinfo call.2) rest := by
      simp [listerVisitLeaves, listerVisitLeaf_eq_List]
    rw [step]
    obtain ⟨h1, h2, h3, h4⟩ := ih (RegexpLister.List IsControlRegexp mem rinfo call.2)
    rw [h1, h2, h3, h4]
    unfold RegexpLister.List
    by_cases h : IsControlRegexp (mem call.2) = true <;> simp [h, List.filter_cons]

/-- C2: a sequence of leaf visits on pairwise distinct nodes, started with empty
matching and control lists, splits the visited nodes between the two lists:
each visited node is in exactly one list (once), no node is in both, nothing
else is in either, and each list is in visiting order (the visited sequence
with the nodes of the other class left out). -/
theorem lister_leaves_partition (IsControlRegexp : Regexp → Bool) (mem : Memory)
    (rinfo : RegexpInfo) (calls : List (LeafVisitor × RegexpPtr))
    (hm : rinfo.re_matching_list = []) (hc : rinfo.re_control_list = [])
    (hd : (calls.map Prod.snd).Nodup) :
    (∀ p, p ∈ calls.map Prod.snd ↔
        (p ∈ (listerVisitLeaves IsControlRegexp mem rinfo calls).re_matching_list
          ∨ p ∈ (listerVisitLeaves IsControlRegexp mem rinfo calls).re_control_list))
    ∧ (∀ p, ¬ (p ∈ (listerVisitLeaves IsControlRegexp mem rinfo calls).re_matching_list
          ∧ p ∈ (listerVisitLeaves IsControlRegexp mem rinfo calls).re_control_list))
    ∧ (∀ p, p ∈ calls.map Prod.snd →
        (listerVisitLeaves IsControlRegexp mem rinfo calls).re_matching_list.count p
          + (listerVisitLeaves IsControlRegexp mem rinfo calls).re_control_list.count p = 1)
    ∧ (listerVisitLeaves IsControlRegexp mem rinfo calls).re_matching_list
        = (calls.map Prod.snd).filter (fun p => !IsControlRegexp (mem p))
    ∧ (listerVisitLeaves IsControlRegexp mem rinfo calls).re_control_list
        = (calls.map Prod.snd).filter (fun p => IsControlRegexp (mem p))
    ∧ ((listerVisitLeaves IsControlRegexp mem rinfo calls).re_matching_list).Sublist
        (calls.map Prod.snd)
    ∧ ((listerVisitLeaves IsControlRegexp mem rinfo calls).re_control_list).Sublist
        (calls.map Prod.snd) := by
  obtain ⟨h1, h2, -, -⟩ := listerVisitLeaves_lists IsControlRegexp mem calls rinfo
  rw [hm, List.nil_append] at h1
  rw [hc, List.nil_append] at h2
  rw [h1, h2]
  refine ⟨?_, ?_, ?_, rfl, rfl, List.filter_sublist _, List.filter_sublist _⟩
  · intro p
    by_cases h : IsControlRegexp (mem p) = true <;> simp [List.mem_filter, h]
  · intro p
    by_cases h : IsControlRegexp (mem p) = true <;> simp [List.mem_filter, h]
  · intro p hp
    have one : (calls.map Prod.snd).count p = 1 := List.count_eq_one_of_mem hd hp
    by_cases h : IsControlRegexp (mem p) = true
    · have z : ((calls.map Prod.snd).filter (fun p => !IsControlRegexp (mem p))).count p = 0 :=
        List.count_eq_zero_of_not_mem (by simp [List.mem_filter, h])
      have o : ((calls.map Prod.snd).filter (fun p => IsControlRegexp (mem p))).count p
          = (calls.map Prod.snd).count p := List.count_filter (by simp [h])
      omega
    · have z : ((calls.map Prod.snd).filter (fun p => IsControlRegexp (mem p))).count p = 0 :=
        List.count_eq_zero_of_not_mem (by simp [List.mem_filter, h])
      have o : ((calls.map Prod.snd).filter (fun p => !IsControlRegexp (mem p))).count p
          = (calls.map Prod.snd).count p := List.count_filter (by simp [h])
      omega

/-- C2 at a concrete tree: a literal run, a line start, a wildcard and a line end
visited in that order give matching list `[1, 3]` and control list `[2, 4]`,
with no node in both. -/
theorem lister_leaves_partition_witness :
    emptyInfo.re_matching_list = []
    ∧ emptyInfo.re_control_list = []
    ∧ (sampleCalls.map Prod.snd).Nodup
    ∧ (listerVisitLeaves zeroWidth sampleMemory emptyInfo sampleCalls).re_matching_list = [1, 3]
    ∧ (listerVisitLeaves zeroWidth sampleMemory emptyInfo sampleCalls).re_control_list = [2, 4]
    ∧ ∀ p, ¬ (p ∈ (listerVisitLeaves zeroWidth sampleMemory emptyInfo
          sampleCalls).re_matching_list
        ∧ p ∈ (listerVisitLeaves zeroWidth sampleMemory emptyInfo
          sampleCalls).re_control_list) :=
  ⟨rfl, rfl, by decide, by decide, by decide,
    (lister_leaves_partition zeroWidth sampleMemory emptyInfo sampleCalls
      rfl rfl (by decide)).2.1⟩

/-- C3: `ListNew(re)` appends `re` at the end of `extra_allocated`, which grows
by that one entry, and leaves the matching and control lists as `List(re)`
leaves them; `List` alone does not change `extra_allocated`. -/
theorem lister_ListNew_registers (IsControlRegexp : Regexp → Bool) (mem : Memory)
    (rinfo : RegexpInfo) (re : RegexpPtr) :
    (RegexpLister.ListNew IsControlRegexp mem rinfo re).extra_allocated
        = rinfo.extra_allocated ++ [re]
    ∧ (RegexpLister.ListNew IsControlRegexp mem rinfo re).extra_allocated.length
        = rinfo.extra_allocated.length + 1
    ∧ (RegexpLister.ListNew IsControlRegexp mem rinfo re).re_matching_list
        = (RegexpLister.List IsControlRegexp mem rinfo re).re_matching_list
    ∧ (RegexpLister.ListNew IsControlRegexp mem rinfo re).re_control_list
        = (RegexpLister.List IsControlRegexp mem rinfo re).re_control_list
    ∧ (RegexpLister.ListNew IsControlRegexp mem rinfo re).ff_list
        = (RegexpLister.List IsControlRegexp mem rinfo re).ff_list
    ∧ (RegexpLister.List IsControlRegexp mem rinfo re).extra_allocated
        = rinfo.extra_allocated := by
  unfold RegexpLister.ListNew RegexpLister.List
  by_cases h : IsControlRegexp (mem re) = true <;> simp [h]

/-! ## Theorems: epsilon visitors -/

/-- C6: visiting an epsilon node is a fatal failure in each tree walker, reached
with the state untouched: the indexer has written no state index on any node
and kept its counters, the lister has appended to no list, and the
fast-forward finder has appended nothing to the fast-forward list (and returns
no value). -/
theorem VisitEpsilon_is_fatal (ix : RegexpIndexer) (mem : Memory) (rinfo : RegexpInfo)
    (epsilon : RegexpPtr) :
    RegexpIndexer.VisitEpsilon ix mem epsilon = Outcome.fatal (ix, mem)
    ∧ RegexpLister.VisitEpsilon rinfo epsilon = Outcome.fatal rinfo
    ∧ FF_finder.VisitEpsilon rinfo epsilon = Outcome.fatal rinfo
    ∧ (RegexpIndexer.VisitEpsilon ix mem epsilon).state.2 epsilon = mem epsilon
    ∧ (RegexpLister.VisitEpsilon rinfo epsilon).state.re_matching_list
        = rinfo.re_matching_list
    ∧ (RegexpLister.VisitEpsilon rinfo epsilon).state.re_control_list
        = rinfo.re_control_list
    ∧ (FF_finder.VisitEpsilon rinfo epsilon).state.ff_list = rinfo.ff_list := by
  refine ⟨rfl, rfl, rfl, rfl, rfl, rfl, rfl⟩

/-! ## Theorems: FF_finder -/

/-- C10: each of the five leaf visitors of the `FF_finder` appends the node at
the end of the fast-forward list (one more element, the earlier ones in place,
the other lists untouched) and returns `true`; `StartOfLine` and `EndOfLine`
are handled exactly like `MultipleChar`, `Period` and `Bracket`. -/
theorem FF_finder_leaf_appends (rinfo : RegexpInfo) (re : RegexpPtr) :
    (∀ v : LeafVisitor,
        ffFinderVisitLeaf v rinfo re
          = (true, { rinfo with ff_list := rinfo.ff_list ++ [re] }))
    ∧ FF_finder.VisitMultipleChar rinfo re
        = (true, { rinfo with ff_list := rinfo.ff_list ++ [re] })
    ∧ FF_finder.VisitPeriod rinfo re = FF_finder.VisitMultipleChar rinfo re
    ∧ FF_finder.VisitBracket rinfo re = FF_finder.VisitMultipleChar rinfo re
    ∧ FF_finder.VisitStartOfLine rinfo re = FF_finder.VisitMultipleChar rinfo re
    ∧ FF_finder.VisitEndOfLine rinfo re = FF_finder.VisitMultipleChar rinfo re
    ∧ (FF_finder.VisitRegexp rinfo re).2.ff_list.length = rinfo.ff_list.length + 1
    ∧ (FF_finder.VisitRegexp rinfo re).2.ff_list.take rinfo.ff_list.length = rinfo.ff_list
    ∧ (FF_finder.VisitRegexp rinfo re).2.ff_list.getLast? = some re
    ∧ (FF_finder.VisitRegexp rinfo re).2.re_matching_list = rinfo.re_matching_list
    ∧ (FF_finder.VisitRegexp rinfo re).2.re_control_list = rinfo.re_control_list
    ∧ (FF_finder.VisitRegexp rinfo re).2.extra_allocated = rinfo.extra_allocated := by
  refine ⟨?_, rfl, rfl, rfl, rfl, rfl, ?_, ?_, ?_, rfl, rfl, rfl⟩
  · intro v
    cases v <;> rfl
  · simp [FF_finder.VisitRegexp]
  · simp [FF_finder.VisitRegexp]
  · simp [FF_finder.VisitRegexp]

/-! ## Theorems: match callbacks -/

/-- Repeated raw appends add the reported matches after the recorded ones. -/
theorem foldl_MatchAllAppendRaw (found : List Match) :
    ∀ recorded : List Match, found.foldl MatchAllAppendRaw recorded = recorded ++ found := by
  induction found with
  | nil => intro recorded; simp
  | cons m rest ih =>
    intro recorded
    simp [List.foldl_cons, ih, MatchAllAppendRaw]

/-- C5: `MatchAllAppendRaw(list, m)` makes the list the old list followed by
`m`: one element longer, every earlier element at its position, `m` last; so a
list filled by repeated calls holds the matches in the order they were
reported. -/
theorem MatchAllAppendRaw_pushes (matches_ : List Match) (m : Match) (found : List Match) :
    MatchAllAppendRaw matches_ m = matches_ ++ [m]
    ∧ (MatchAllAppendRaw matches_ m).length = matches_.length + 1
    ∧ (∀ i, i < matches_.length → (MatchAllAppendRaw matches_ m)[i]? = matches_[i]?)
    ∧ (MatchAllAppendRaw matches_ m)[matches_.length]? = some m
    ∧ found.foldl MatchAllAppendRaw matches_ = matches_ ++ found := by
  refine ⟨rfl, ?_, ?_, ?_, foldl_MatchAllAppendRaw found matches_⟩
  · simp [MatchAllAppendRaw]
  · intro i hi
    simp [MatchAllAppendRaw, List.getElem?_append_left hi]
  · simp [MatchAllAppendRaw]

/-- C5 at a concrete list: pushing `(0, 1)` after `(4, 6), (2, 3)` keeps both in
place although the new span starts before them. -/
theorem MatchAllAppendRaw_pushes_witness :
    MatchAllAppendRaw [⟨4, 6⟩, ⟨2, 3⟩] ⟨0, 1⟩ = [⟨4, 6⟩, ⟨2, 3⟩, ⟨0, 1⟩]
    ∧ (MatchAllAppendRaw [⟨4, 6⟩, ⟨2, 3⟩] ⟨0, 1⟩)[1]? = some ⟨2, 3⟩ :=
  ⟨by decide,
    ((MatchAllAppendRaw_pushes [⟨4, 6⟩, ⟨2, 3⟩] ⟨0, 1⟩ []).2.2.1 1 (by decide)).trans
      (by decide)⟩

/-- A list in which no match is invalidated by a later one stays so under
`MatchAllAppendFilter`, whatever is reported next. -/
theorem foldl_MatchAllAppendFilter_pairwise (invalidates : Match → Match → Bool)
    (found : List Match) :
    ∀ recorded : List Match,
      recorded.Pairwise (fun earlier later => invalidates later earlier = false) →
      (found.foldl (MatchAllAppendFilter invalidates) recorded).Pairwise
        (fun earlier later => invalidates later earlier = false) := by
  induction found with
  | nil => intro recorded h; simpa using h
  | cons m rest ih =>
    intro recorded h
    rw [List.foldl_cons]
    apply ih
    unfold MatchAllAppendFilter
    rw [List.pairwise_append]
    refine ⟨h.sublist (List.filter_sublist _), List.pairwise_singleton _ _, ?_⟩
    intro a ha b hb
    rw [List.mem_singleton] at hb
    subst hb
    have := (List.mem_filter.mp ha).2
    simpa using this

/-- C4: after `MatchAllAppendFilter(list, new_match)` the new match is the last
element; the elements before it are the recorded matches that the new match
does not invalidate, in their old order, so every recorded match it invalidates
is gone; and in a list built from empty by any sequence of calls no match is
invalidated by a later match of the list. -/
theorem MatchAllAppendFilter_evicts (invalidates : Match → Match → Bool)
    (matches_ : List Match) (new_match : Match) (found : List Match) :
    (MatchAllAppendFilter invalidates matches_ new_match).getLast? = some new_match
    ∧ (MatchAllAppendFilter invalidates matches_ new_match).dropLast
        = matches_.filter (fun recorded => !invalidates new_match recorded)
    ∧ (∀ recorded, recorded ∈ matches_ → invalidates new_match recorded = true →
        recorded ∉ (MatchAllAppendFilter invalidates matches_ new_match).dropLast)
    ∧ (∀ recorded, recorded ∈ (MatchAllAppendFilter invalidates matches_ new_match).dropLast →
        invalidates new_match recorded = false)
    ∧ ((MatchAllAppendFilter invalidates matches_ new_match).dropLast).Sublist matches_
    ∧ (filterScan invalidates found).Pairwise
        (fun earlier later => invalidates later earlier = false) := by
  have hdrop : (MatchAllAppendFilter invalidates matches_ new_match).dropLast
      = matches_.filter (fun recorded => !invalidates new_match recorded) := by
    simp [MatchAllAppendFilter]
  refine ⟨?_, hdrop, ?_, ?_, ?_, ?_⟩
  · simp [MatchAllAppendFilter]
  · intro recorded _ hinv
    rw [hdrop]
    simp [List.mem_filter, hinv]
  · intro recorded hmem
    rw [hdrop] at hmem
    simpa using (List.mem_filter.mp hmem).2
  · rw [hdrop]
    exact List.filter_sublist _
  · exact foldl_MatchAllAppendFilter_pairwise invalidates found [] List.Pairwise.nil

/-- C4 at a concrete scan: `(1, 2)`, `(5, 6)`, then `(0, 3)`, which covers the
first: the first is evicted, the second stays, the new one is last. -/
theorem MatchAllAppendFilter_evicts_witness :
    (⟨1, 2⟩ : Match) ∈ [(⟨1, 2⟩ : Match), ⟨5, 6⟩]
    ∧ covers ⟨0, 3⟩ ⟨1, 2⟩ = true
    ∧ MatchAllAppendFilter covers [⟨1, 2⟩, ⟨5, 6⟩] ⟨0, 3⟩ = [⟨5, 6⟩, ⟨0, 3⟩]
    ∧ (⟨1, 2⟩ : Match) ∉ (MatchAllAppendFilter covers [⟨1, 2⟩, ⟨5, 6⟩] ⟨0, 3⟩).dropLast
    ∧ filterScan covers [⟨1, 2⟩, ⟨5, 6⟩, ⟨0, 3⟩] = [⟨5, 6⟩, ⟨0, 3⟩] :=
  ⟨by decide, by decide, by decide,
    (MatchAllAppendFilter_evicts covers [⟨1, 2⟩, ⟨5, 6⟩] ⟨0, 3⟩ []).2.2.1 ⟨1, 2⟩
      (by decide) (by decide),
    by decide⟩

/-! ## Theorems: FastForwardGen -/

/-- C7: under `SetStateFallThrough`, `PotentialMatch(re)` is
`FoundState(0, re->entry_state())` and `PotentialMatches(l)` is
`SetEntryStates(l)`; under `FallThrough` both return with the state unchanged;
the assertion of the else branch holds for every behaviour that reaches it, so
neither function fails on its own; and with the seeding calls recorded, a call
is recorded if and only if the behaviour is `SetStateFallThrough`. -/
theorem PotentialMatch_seeds_iff {σ : Type} (FoundState : Int → Int → σ → Outcome σ Unit)
    (SetEntryStates : List RegexpPtr → σ → Outcome σ Unit) (b : Behaviour) (mem : Memory)
    (re : RegexpPtr) (l : List RegexpPtr) (s : σ) (log : List SeedCall) :
    FastForwardGen.PotentialMatch FoundState .SetStateFallThrough mem re s
        = FoundState 0 (mem re).entry_state s
    ∧ FastForwardGen.PotentialMatches SetEntryStates .SetStateFallThrough l s
        = SetEntryStates l s
    ∧ FastForwardGen.PotentialMatch FoundState .FallThrough mem re s = Outcome.ret () s
    ∧ FastForwardGen.PotentialMatches SetEntryStates .FallThrough l s = Outcome.ret () s
    ∧ (b = .SetStateFallThrough ∨ decide (b = .FallThrough) = true)
    ∧ FastForwardGen.PotentialMatch FoundState b mem re s
        = (if b = .SetStateFallThrough then FoundState 0 (mem re).entry_state s
           else Outcome.ret () s)
    ∧ FastForwardGen.PotentialMatches SetEntryStates b l s
        = (if b = .SetStateFallThrough then SetEntryStates l s else Outcome.ret () s)
    ∧ ((FastForwardGen.PotentialMatch recordFoundState b mem re log).state ≠ log
        ↔ b = .SetStateFallThrough)
    ∧ ((FastForwardGen.PotentialMatches recordSetEntryStates b l log).state ≠ log
        ↔ b = .SetStateFallThrough) := by
  refine ⟨rfl, rfl, rfl, rfl, ?_, ?_, ?_, ?_, ?_⟩
  · cases b <;> simp
  · cases b <;> rfl
  · cases b <;> rfl
  · cases b <;>
      simp [FastForwardGen.PotentialMatch, recordFoundState, Outcome.state, ASSERT]
  · cases b <;>
      simp [FastForwardGen.PotentialMatches, recordSetEntryStates, Outcome.state, ASSERT]

/-- The label taken by the switch is the tag itself when the tag is listed, and
there is none otherwise. -/
theorem switchCase_eq (kinds : List RegexpType) (tag : RegexpType) :
    switchCase kinds tag = if tag ∈ kinds then some tag else none := by
  induction kinds with
  | nil => simp [switchCase]
  | cons k rest ih =>
    unfold switchCase
    by_cases h : tag = k
    · simp [h]
    · simp [h, ih]

/-- C9: `VisitSingle` runs the `VisitSingle<Kind>` of the node's type tag, once
and nothing else, when the tag is one of `LIST_PHYSICAL_REGEXP_TYPES`; for any
other tag it is a fatal failure reached with the state untouched, so with no
per-kind test run. The second part records the per-kind calls to show which
ones are made; the last two take the six kinds named in `codegen.h` as the
physical ones: a composite kind or an unrecognized value is then fatal. -/
theorem VisitSingle_dispatch {σ : Type} (LIST_PHYSICAL_REGEXP_TYPES : List RegexpType)
    (VisitSingleKind : RegexpType → RegexpPtr → σ → Outcome σ Unit)
    (mem : Memory) (regexp : RegexpPtr) (s : σ) (log : List (RegexpType × RegexpPtr)) :
    FastForwardGen.VisitSingle LIST_PHYSICAL_REGEXP_TYPES VisitSingleKind mem regexp s
        = (if (mem regexp).type ∈ LIST_PHYSICAL_REGEXP_TYPES
           then VisitSingleKind (mem regexp).type regexp s
           else Outcome.fatal s)
    ∧ FastForwardGen.VisitSingle LIST_PHYSICAL_REGEXP_TYPES recordVisitSingle mem regexp log
        = (if (mem regexp).type ∈ LIST_PHYSICAL_REGEXP_TYPES
           then Outcome.ret () (log ++ [((mem regexp).type, regexp)])
           else Outcome.fatal log)
    ∧ ((mem regexp).type ∈ physicalKinds →
        FastForwardGen.VisitSingle physicalKinds recordVisitSingle mem regexp log
          = Outcome.ret () (log ++ [((mem regexp).type, regexp)]))
    ∧ (∀ n, (mem regexp).type = .kFlow n ∨ (mem regexp).type = .kInvalid n →
        FastForwardGen.VisitSingle physicalKinds VisitSingleKind mem regexp s
          = Outcome.fatal s) := by
  refine ⟨?_, ?_, ?_, ?_⟩
  · unfold FastForwardGen.VisitSingle
    rw [switchCase_eq]
    by_cases h : (mem regexp).type ∈ LIST_PHYSICAL_REGEXP_TYPES <;> simp [h, UNREACHABLE]
  · unfold FastForwardGen.VisitSingle
    rw [switchCase_eq]
    by_cases h : (mem regexp).type ∈ LIST_PHYSICAL_REGEXP_TYPES <;>
      simp [h, UNREACHABLE, recordVisitSingle]
  · intro h
    unfold FastForwardGen.VisitSingle
    rw [switchCase_eq]
    simp [h, recordVisitSingle]
  · intro n h
    have hnot : (mem regexp).type ∉ physicalKinds := by
      rcases h with h | h <;> rw [h] <;> simp [physicalKinds]
    unfold FastForwardGen.VisitSingle
    rw [switchCase_eq]
    simp [hnot, UNREACHABLE]

/-- C9 at a concrete tree: on the literal run at address 1 exactly
`VisitSingleMultipleChar` is run; on the composite node at address 5 the
dispatcher fails and no test is run. -/
theorem VisitSingle_dispatch_witness :
    (sampleMemory 1).type ∈ physicalKinds
    ∧ ((sampleMemory 5).type = .kFlow 0 ∨ (sampleMemory 5).type = .kInvalid 0)
    ∧ FastForwardGen.VisitSingle physicalKinds recordVisitSingle sampleMemory 1 []
        = Outcome.ret () [(.kMultipleChar, 1)]
    ∧ FastForwardGen.VisitSingle physicalKinds recordVisitSingle sampleMemory 5 []
        = Outcome.fatal [] :=
  ⟨by decide, by decide,
    (VisitSingle_dispatch physicalKinds recordVisitSingle sampleMemory 1 [] []).2.2.1
      (by decide),
    (VisitSingle_dispatch physicalKinds recordVisitSingle sampleMemory 5 [] []).2.2.2 0
      (by decide)⟩

/-! ## Theorems: RegexpIndexer -/

/-- On a leaf, the dispatcher of the indexer is one call of `VisitRegexp`. -/
theorem RegexpIndexer_Visit_leaf
    (VisitFlow : Nat → Int → Int → RegexpIndexer → Memory → RegexpPtr →
      Outcome (RegexpIndexer × Memory) Unit)
    (entry_state output_state : Int) (ix : RegexpIndexer) (mem : Memory) (re : RegexpPtr)
    (hleaf : (mem re).type ∈ leafKinds) :
    RegexpIndexer.Visit VisitFlow entry_state output_state ix mem re
      = Outcome.ret () (ix, RegexpIndexer.VisitRegexp entry_state output_state mem re) := by
  unfold RegexpIndexer.Visit
  simp only [leafKinds, List.mem_cons, List.mem_singleton, List.not_mem_nil, or_false] at hleaf
  rcases hleaf with h | h | h | h | h <;> rw [h] <;> rfl

/-- C8: each leaf visitor of the indexer is the single operation `VisitRegexp`,
which writes the given entry/output pair on the node and leaves its type and
every other node as they were; `IndexSub(regexp)` is `IndexSub(regexp, 0, -1)`,
which on a leaf records entry state 0 and, as output, the freshly allocated
state after `last_state_`; with an explicit output the given pair is recorded
and no state is allocated. -/
theorem indexer_leaf_records
    (VisitFlow : Nat → Int → Int → RegexpIndexer → Memory → RegexpPtr →
      Outcome (RegexpIndexer × Memory) Unit)
    (v : LeafVisitor) (entry_state output_state : Int) (ix : RegexpIndexer) (mem : Memory)
    (re : RegexpPtr) :
    indexerVisitLeaf v entry_state output_state mem re
        = RegexpIndexer.VisitRegexp entry_state output_state mem re
    ∧ (RegexpIndexer.VisitRegexp entry_state output_state mem re re).entry_state = entry_state
    ∧ (RegexpIndexer.VisitRegexp entry_state output_state mem re re).output_state
        = output_state
    ∧ (RegexpIndexer.VisitRegexp entry_state output_state mem re re).type = (mem re).type
    ∧ (∀ p, p ≠ re → RegexpIndexer.VisitRegexp entry_state output_state mem re p = mem p)
    ∧ RegexpIndexer.IndexSubDefault VisitFlow ix mem re
        = RegexpIndexer.IndexSub VisitFlow ix mem re 0 (-1)
    ∧ ((mem re).type ∈ leafKinds →
        RegexpIndexer.IndexSubDefault VisitFlow ix mem re
          = Outcome.ret ()
              ({ ix with last_state_ := ix.last_state_ + 1 },
                RegexpIndexer.VisitRegexp 0 (ix.last_state_ + 1) mem re))
    ∧ ((mem re).type ∈ leafKinds → output_state ≠ -1 →
        RegexpIndexer.IndexSub VisitFlow ix mem re entry_state output_state
          = Outcome.ret ()
              (ix, RegexpIndexer.VisitRegexp entry_state output_state mem re)) := by
  refine ⟨?_, ?_, ?_, ?_, ?_, rfl, ?_, ?_⟩
  · cases v <;> rfl
  · simp [RegexpIndexer.VisitRegexp]
  · simp [RegexpIndexer.VisitRegexp]
  · simp [RegexpIndexer.VisitRegexp]
  · intro p hp
    simp [RegexpIndexer.VisitRegexp, Function.update, hp]
  · intro hleaf
    unfold RegexpIndexer.IndexSubDefault RegexpIndexer.IndexSub
    rw [if_pos rfl]
    exact RegexpIndexer_Visit_leaf VisitFlow 0 (ix.last_state_ + 1) _ mem re hleaf
  · intro hleaf hout
    unfold RegexpIndexer.IndexSub
    rw [if_neg hout]
    exact RegexpIndexer_Visit_leaf VisitFlow entry_state output_state ix mem re hleaf

/-- C8 at a concrete tree: indexing the literal run at address 1 with the
defaults, from a new indexer, gives it entry state 0 and the fresh output state
1, and leaves the node at address 2 alone. -/
theorem indexer_leaf_records_witness :
    (sampleMemory 1).type ∈ leafKinds
    ∧ (2 : RegexpPtr) ≠ 1
    ∧ RegexpIndexer.IndexSubDefault noFlow RegexpIndexer.new sampleMemory 1
        = Outcome.ret ()
            ({ entry_state_ := 0, last_state_ := 1 },
              RegexpIndexer.VisitRegexp 0 1 sampleMemory 1)
    ∧ RegexpIndexer.VisitRegexp 0 1 sampleMemory 1 1
        = { type := .kMultipleChar, entry_state := 0, output_state := 1 }
    ∧ RegexpIndexer.VisitRegexp 0 1 sampleMemory 1 2 = sampleMemory 2 :=
  ⟨by decide, by decide,
    (indexer_leaf_records noFlow .MultipleChar 0 1 RegexpIndexer.new sampleMemory 1).2.2.2.2.2.2.1
      (by decide),
    by decide,
    (indexer_leaf_records noFlow .MultipleChar 0 1 RegexpIndexer.new sampleMemory 1).2.2.2.2.1
      2 (by decide)⟩

end Rejit
